import Mathlib

/-!
Verification of the adaptive Excel → Postman test-case compiler and results
reconciler (`src/excel_postman_generator.py`, `src/newman_runner.py`).

The Python code is shallowly embedded: spreadsheet cells become `Option String`
(`none` = an empty cell / Python `None`), rows become records of the cells the
pipeline reads, and the mutable carry-forward ("sticky") state of the row loop
becomes an explicit `Carry` record threaded through a step function.  Python
truthiness on cell values (`if value:`) is `pyTruthy`; the membership test
`value not in (None, "")` used for stickiness is `¬ cellBlank`.  Cell values
that the source passes through `str()` are modelled as the resulting strings.

String primitives (`strip`, `lower`, `upper`, `startswith`, `replace`) are
re-implemented structurally over `List Char` so that every definition reduces
inside the kernel; they agree with the Python string methods on the ASCII
inputs this pipeline handles.
-/

namespace ApiAuto

/-- The single-quote character, used heavily by the generated pm test script. -/
def sq : String := String.mk [Char.ofNat 39]

/-- The backslash character, used by `_escape_js_string`. -/
def bsl : String := String.mk [Char.ofNat 92]

/-- `str.strip()`: drop leading and trailing whitespace. -/
def trimStr (s : String) : String :=
  String.mk
    (((s.data.dropWhile Char.isWhitespace).reverse.dropWhile Char.isWhitespace).reverse)

/-- `str.lower()` (ASCII). -/
def lowerStr (s : String) : String :=
  String.mk (s.data.map Char.toLower)

/-- `str.upper()` (ASCII). -/
def upperStr (s : String) : String :=
  String.mk (s.data.map Char.toUpper)

/-- `str.startswith(pre)`. -/
def startsWithStr (s pre : String) : Bool :=
  pre.data.isPrefixOf s.data

/--
`str.replace(pat, rep)` on character lists, non-overlapping, left to right.
The first argument is fuel (the length of the subject string suffices because
each step consumes at least one character when the pattern is non-empty; the
patterns used by the generator, `"{" + key + "}"`, are never empty).
-/
def replaceFuel : Nat → List Char → List Char → List Char → List Char
  | 0, s, _, _ => s
  | _ + 1, [], _, _ => []
  | fuel + 1, c :: rest, pat, rep =>
    if pat.isPrefixOf (c :: rest) && !pat.isEmpty then
      rep ++ replaceFuel fuel ((c :: rest).drop pat.length) pat rep
    else
      c :: replaceFuel fuel rest pat rep

/-- `str.replace(pat, rep)`. -/
def replaceStr (s pat rep : String) : String :=
  String.mk (replaceFuel s.data.length s.data pat.data rep.data)

/-- A spreadsheet cell: `none` models an empty cell (Python `None`). -/
abbrev Cell := Option String

/-- `_norm`: `str(s).strip().lower() if s is not None else ""`. -/
def pyNorm (c : Cell) : String :=
  match c with
  | none => ""
  | some s => lowerStr (trimStr s)

/-- The test `value in (None, "")` used for the sticky-field updates. -/
def cellBlank (c : Cell) : Bool :=
  match c with
  | none => true
  | some s => s == ""

/-- Python truthiness of an optional string (`if value:`). -/
def pyTruthy (c : Cell) : Bool :=
  match c with
  | none => false
  | some s => s != ""

/-- Python `a or b` on an optional/possibly-empty string with a default. -/
def pyOr (c : Option String) (dflt : String) : String :=
  match c with
  | none => dflt
  | some s => if s == "" then dflt else s

/-- `str.rstrip("/")`. -/
def rstripSlash (s : String) : String :=
  String.mk ((s.data.reverse.dropWhile (fun c => c == '/')).reverse)

/-- `str.lstrip("/")`. -/
def lstripSlash (s : String) : String :=
  String.mk (s.data.dropWhile (fun c => c == '/'))

/-- `a.rstrip("/") + "/" + b.lstrip("/")`: the URL join used by the generator. -/
def joinSlash (a b : String) : String :=
  rstripSlash a ++ "/" ++ lstripSlash b

/--
URL determination, `generate_postman_collection_from_excel` lines 340–353:

    url = None
    if base_url_override and path_value:
        url = str(base_url_override).rstrip("/") + "/" + str(path_value).lstrip("/")
    elif raw_url_value and str(raw_url_value).strip():
        url = str(raw_url_value).strip()
    else:
        if base_url_value and path_value:
            url = str(base_url_value).rstrip("/") + "/" + str(path_value).lstrip("/")
        elif path_value and str(path_value).lower().startswith("http"):
            url = str(path_value)
    if not url:
        continue
-/
def resolveUrl (ov raw base path : Option String) : Option String :=
  if pyTruthy ov && pyTruthy path then
    some (joinSlash (ov.getD "") (path.getD ""))
  else if pyTruthy raw && !(trimStr (raw.getD "") == "") then
    some (trimStr (raw.getD ""))
  else if pyTruthy base && pyTruthy path then
    some (joinSlash (base.getD "") (path.getD ""))
  else if pyTruthy path && startsWithStr (lowerStr (path.getD "")) "http" then
    some (path.getD "")
  else
    none

/--
The spec's description of URL resolution (§4.2): four candidate alternatives
in a fixed order, "first that yields a non-empty value wins".  A candidate is
available when its inputs are present (non-blank); an available candidate's
value is never empty (a join always contains "/", alternative 4 starts with
an HTTP scheme), so "first non-empty" is "first available".
-/
def specCandidates (ov raw base path : Option String) : List (Option String) :=
  [ if pyTruthy ov && pyTruthy path then
      some (joinSlash (ov.getD "") (path.getD "")) else none,
    if !(trimStr (raw.getD "") == "") then some (trimStr (raw.getD "")) else none,
    if pyTruthy base && pyTruthy path then
      some (joinSlash (base.getD "") (path.getD "")) else none,
    if pyTruthy path && startsWithStr (lowerStr (path.getD "")) "http" then
      some (path.getD "") else none ]

/-- Spec-side URL resolution: the first candidate that yields a value. -/
def specResolveUrl (ov raw base path : Option String) : Option String :=
  (specCandidates ov raw base path).findSome? id

/--
Path-parameter substitution, lines 383–384:
`for k, v in path_params.items(): url = url.replace("{" + str(k) + "}", str(v))`.
-/
def substPathParams (url : String) (ps : List (String × String)) : String :=
  ps.foldl (fun u kv => replaceStr u ("\x7b" ++ kv.1 ++ "\x7d") kv.2) url

/-- The resolved URL with path-parameter placeholders substituted. -/
def finalUrl (ov raw base path : Option String) (ps : List (String × String)) :
    Option String :=
  (resolveUrl ov raw base path).map (fun u => substPathParams u ps)

theorem guard2_eq (raw : Option String) :
    (pyTruthy raw && !(trimStr (raw.getD "") == "")) = !(trimStr (raw.getD "") == "") := by
  cases raw with
  | none => simp [pyTruthy, trimStr]
  | some s =>
      by_cases hs : s = ""
      · subst hs
        simp [pyTruthy, trimStr]
      · simp [pyTruthy, hs]

/--
Claim C3: for every non-blank row, the request URL is chosen by the first
alternative that yields a non-empty value in the fixed order (1) external
base-URL override joined with the (carried-forward) path, (2) the
(carried-forward) URL cell, (3) the (carried-forward) base URL joined with the
path, (4) a path cell that begins with an HTTP scheme; in particular an
override plus a path dominates any URL / base-URL cell, giving
override + "/" + path with redundant slashes trimmed at the join, after which
`{key}` path-parameter placeholders are substituted.
-/
theorem c3_url_precedence :
    (∀ ov raw base path : Option String,
        resolveUrl ov raw base path = specResolveUrl ov raw base path) ∧
    (∀ (o p : String) (raw base : Option String) (ps : List (String × String)),
        o ≠ "" → p ≠ "" →
        finalUrl (some o) raw base (some p) ps =
          some (substPathParams (joinSlash o p) ps)) := by
  constructor
  · intro ov raw base path
    unfold resolveUrl specResolveUrl specCandidates
    rw [guard2_eq]
    cases h1 : (pyTruthy ov && pyTruthy path) <;>
      cases h2 : (!(trimStr (raw.getD "") == "")) <;>
        cases h3 : (pyTruthy base && pyTruthy path) <;>
          cases h4 : (pyTruthy path && startsWithStr (lowerStr (path.getD "")) "http") <;>
            simp [List.findSome?]
  · intro o p raw base ps ho hp
    have hto : pyTruthy (some o) = true := by simp [pyTruthy, ho]
    have htp : pyTruthy (some p) = true := by simp [pyTruthy, hp]
    simp [finalUrl, resolveUrl, hto, htp]

/--
Witness for C3 at the spec's own example: override `https://gw.example`, row
path `/users/{id}` and path param `id=7` give `https://gw.example/users/7`
regardless of the URL / base-URL cells present on the row.
-/
theorem c3_witness :
    finalUrl (some "https://gw.example") (some "https://ignored.example/zzz")
        (some "https://also.ignored") (some "/users/\x7bid\x7d") [("id", "7")] =
      some "https://gw.example/users/7" := by
  rw [c3_url_precedence.2 "https://gw.example" "/users/\x7bid\x7d"
        (some "https://ignored.example/zzz") (some "https://also.ignored")
        [("id", "7")] (by decide) (by decide)]
  decide

/--
One spreadsheet row, restricted to the cells the row loop reads by resolved
column index.  `others` holds the remaining cells of the row (headers, payload,
expected status, parameters, assertions, …), which take part only in the
all-blank check.  A `none` field also covers the case where the whole column is
absent from the sheet (`_get_cell(row, None) = None`).
-/
structure Row where
  name : Cell
  testcaseName : Cell
  method : Cell
  url : Cell
  baseUrl : Cell
  path : Cell
  folder : Cell
  others : List Cell
deriving DecidableEq

/-- All cells of a row, for the blank-row check. -/
def rowCells (r : Row) : List Cell :=
  [r.name, r.testcaseName, r.method, r.url, r.baseUrl, r.path, r.folder] ++ r.others

/-- Line 294: `all((_norm(c.value) == "" for c in row))`. -/
def rowAllBlank (r : Row) : Bool :=
  (rowCells r).all (fun c => pyNorm c == "")

/--
The sticky carry-forward state of one sheet's row loop (lines 286–291):
`last_name`, `last_method`, `last_raw_url`, `last_base_url`, `last_path`,
`last_folder`.  `last_folder` starts at the sheet title and is a plain string
because it is only ever assigned non-blank values.
-/
structure Carry where
  lastName : Option String
  lastMethod : Option String
  lastRawUrl : Option String
  lastBaseUrl : Option String
  lastPath : Option String
  lastFolder : String
deriving DecidableEq

/-- Initial carry state for a sheet (lines 285–291). -/
def initCarry (title : String) : Carry :=
  ⟨none, none, none, none, none, title⟩

/--
Name resolution, lines 297–306: the name cell if non-blank, else the
testcase-name cell if non-blank, else the carried name, else `"Unnamed"`.
(The fall-through `testcase_name_raw or last_name or "Unnamed"` at line 305
reaches `testcase_name_raw` only when it is blank, so it cannot supply the
value there.)
-/
def stickyNameVal (c : Carry) (r : Row) : String :=
  if cellBlank r.name then
    if cellBlank r.testcaseName then pyOr c.lastName "Unnamed"
    else r.testcaseName.getD ""
  else r.name.getD ""

/-- Sticky update of one cell-backed field (e.g. lines 316–321). -/
def stickyCell (cell : Cell) (lastV : Option String) : Option String :=
  if cellBlank cell then lastV else cell

/-- The request data recorded for one emitted row, tagged with its origin. -/
structure Emit where
  sheet : String
  row : Nat
  name : String
  method : String
  url : String
  folderKey : String
  folderName : String
deriving DecidableEq

/--
One iteration of the row loop (lines 293–475), abstracting the request body,
headers, parameters and test script, which do not interact with stickiness:

* an all-blank row is skipped before any state is touched (line 294);
* name, method, URL, base URL and path sticky values are updated while the
  row is read (lines 297–335), *before* URL resolution;
* a row with no resolvable URL is dropped by the `continue` at line 353,
  which runs before the folder cell is read, so `last_folder` is not updated
  on such rows (lines 360–365 are only reached for emitted rows).
-/
def stepRow (ov : Option String) (title : String) (c : Carry) (n : Nat) (r : Row) :
    Carry × Option Emit :=
  if rowAllBlank r then (c, none)
  else
    let nm := stickyNameVal c r
    let rawUrlVal := stickyCell r.url c.lastRawUrl
    let baseVal := stickyCell r.baseUrl c.lastBaseUrl
    let pathVal := stickyCell r.path c.lastPath
    let c1 : Carry :=
      ⟨some nm, stickyCell r.method c.lastMethod, rawUrlVal, baseVal, pathVal,
        c.lastFolder⟩
    match resolveUrl ov rawUrlVal baseVal pathVal with
    | none => (c1, none)
    | some u =>
      let fname :=
        if cellBlank r.folder then pyOr (some c.lastFolder) title
        else r.folder.getD ""
      let fkey0 := pyNorm (some fname)
      (⟨c1.lastName, c1.lastMethod, c1.lastRawUrl, c1.lastBaseUrl, c1.lastPath,
          if cellBlank r.folder then c.lastFolder else r.folder.getD ""⟩,
        some
          ⟨title, n, nm,
            upperStr (if cellBlank r.method then pyOr c.lastMethod "GET"
                      else r.method.getD ""),
            u,
            (if fkey0 == "" then pyNorm (some title) else fkey0),
            pyOr (some fname) title⟩)

/-- The row loop over one sheet's data rows, numbering rows from 2. -/
def processRows (ov : Option String) (title : String) :
    Carry → Nat → List Row → List Emit
  | _, _, [] => []
  | c, n, r :: rs =>
    match stepRow ov title c n r with
    | (c2, none) => processRows ov title c2 (n + 1) rs
    | (c2, some e) => e :: processRows ov title c2 (n + 1) rs

/-- Process one sheet: fresh carry state per sheet (lines 285–291). -/
def processSheet (ov : Option String) (s : String × List Row) : List Emit :=
  processRows ov s.1 (initCarry s.1) 2 s.2

/-- All emitted requests of a workbook, in row-processing order. -/
def runWorkbook (ov : Option String) (sheets : List (String × List Row)) :
    List Emit :=
  sheets.flatMap (processSheet ov)

/--
Folder assembly, lines 470–473: a Python dict keyed by normalized folder name;
first use creates the folder (insertion order preserved), later uses append to
the folder's item list.
-/
def addEmit (fs : List (String × String × List Emit)) (e : Emit) :
    List (String × String × List Emit) :=
  if fs.any (fun f => f.1 == e.folderKey) then
    fs.map (fun f =>
      if f.1 == e.folderKey then (f.1, f.2.1, f.2.2 ++ [e]) else f)
  else
    fs ++ [(e.folderKey, e.folderName, [e])]

/-- The collection's folder list (`list(folders.values())`, line 478). -/
def collectionFolders (emits : List Emit) : List (String × String × List Emit) :=
  emits.foldl addEmit []

/--
The flat list of compiled requests: folders in creation order, requests within
a folder in append order — the order the external runner executes them.
-/
def flatRequests (emits : List Emit) : List Emit :=
  (collectionFolders emits).flatMap (fun f => f.2.2)

/-- The Row↔Request Linkage (`row_links`, lines 257 and 475): row order. -/
def rowLinks (emits : List Emit) : List (String × Nat) :=
  emits.map (fun e => (e.sheet, e.row))

/-- A row containing only a URL cell and a folder cell. -/
def urlFolderRow (u f : Cell) : Row :=
  ⟨none, none, none, u, none, none, f, []⟩

/-- Three rows whose folder cells interleave: folders A, B, A. -/
def c1Sheet : String × List Row :=
  ("S",
    [urlFolderRow (some "http://x.example/a") (some "A"),
     urlFolderRow (some "http://x.example/b") (some "B"),
     urlFolderRow (some "http://x.example/c") (some "A")])

/--
Claim C1 (code bug): the Row↔Request Linkage is appended in row order, but the
collection's flat request order groups by folder creation order.  On a sheet
whose rows 2, 3, 4 carry folders A, B, A, the flat order is
[row 2, row 4, row 3] while the linkage reads [row 2, row 3, row 4]: the
claimed positional identity fails exactly on interleaved folder names, and the
reconciler (which consumes both sequences in lockstep) pairs row 3 with the
execution of row 4's request.
-/
theorem c1_interleaved_folder_mismatch :
    (flatRequests (runWorkbook none [c1Sheet])).map (fun e => (e.sheet, e.row)) =
        [("S", 2), ("S", 4), ("S", 3)] ∧
      rowLinks (runWorkbook none [c1Sheet]) = [("S", 2), ("S", 3), ("S", 4)] ∧
      (flatRequests (runWorkbook none [c1Sheet])).map (fun e => (e.sheet, e.row)) ≠
        rowLinks (runWorkbook none [c1Sheet]) := by
  refine ⟨by decide, by decide, by decide⟩

/-- A row whose only non-blank cell is its folder cell. -/
def c4RowFolderOnly : Row :=
  ⟨none, none, none, none, none, none, some "A", []⟩

/-- A row whose only non-blank cell is its URL cell. -/
def c4RowUrlOnly : Row :=
  ⟨none, none, none, some "http://y.example", none, none, none, []⟩

/--
Counterexample to claim C4 as stated: on a row that resolves to no URL, a
non-blank folder cell does *not* become the carried folder value, because the
`continue` for URL-less rows (line 353) runs before the folder cell is read
(line 360).  Row 2 carries folder "A" (non-blank) but no URL; row 3 has a URL
and a blank folder cell, and is emitted under the sheet-title folder "S"
instead of the claimed carried value "A".
-/
theorem c4_counterexample :
    cellBlank c4RowFolderOnly.folder = false ∧
    c4RowFolderOnly.folder = some "A" ∧
    rowAllBlank c4RowFolderOnly = false ∧
    (runWorkbook none [("S", [c4RowFolderOnly, c4RowUrlOnly])]).map
        (fun e => e.folderName) = ["S"] ∧
    ("S" : String) ≠ "A" := by
  refine ⟨by decide, by decide, by decide, by decide, by decide⟩

/-- Unfolding lemma: a blank row is skipped without touching the carry. -/
theorem stepRow_blank {ov : Option String} {title : String} {c : Carry} {n : Nat}
    {r : Row} (h : rowAllBlank r = true) : stepRow ov title c n r = (c, none) := by
  simp [stepRow, h]

/-- Unfolding lemma: a non-blank row that resolves to no URL. -/
theorem stepRow_no_url {ov : Option String} {title : String} {c : Carry} {n : Nat}
    {r : Row} (h : rowAllBlank r = false)
    (hu : resolveUrl ov (stickyCell r.url c.lastRawUrl)
        (stickyCell r.baseUrl c.lastBaseUrl) (stickyCell r.path c.lastPath) = none) :
    stepRow ov title c n r =
      (⟨some (stickyNameVal c r), stickyCell r.method c.lastMethod,
          stickyCell r.url c.lastRawUrl, stickyCell r.baseUrl c.lastBaseUrl,
          stickyCell r.path c.lastPath, c.lastFolder⟩,
        none) := by
  simp [stepRow, h, hu]

/-- Unfolding lemma: a non-blank row that resolves to a URL and is emitted. -/
theorem stepRow_url {ov : Option String} {title : String} {c : Carry} {n : Nat}
    {r : Row} {u : String} (h : rowAllBlank r = false)
    (hu : resolveUrl ov (stickyCell r.url c.lastRawUrl)
        (stickyCell r.baseUrl c.lastBaseUrl) (stickyCell r.path c.lastPath) =
          some u) :
    stepRow ov title c n r =
      (⟨some (stickyNameVal c r), stickyCell r.method c.lastMethod,
          stickyCell r.url c.lastRawUrl, stickyCell r.baseUrl c.lastBaseUrl,
          stickyCell r.path c.lastPath,
          if cellBlank r.folder then c.lastFolder else r.folder.getD ""⟩,
        some
          ⟨title, n, stickyNameVal c r,
            upperStr (if cellBlank r.method then pyOr c.lastMethod "GET"
                      else r.method.getD ""),
            u,
            (if pyNorm (some (if cellBlank r.folder then pyOr (some c.lastFolder) title
                              else r.folder.getD "")) == ""
             then pyNorm (some title)
             else pyNorm (some (if cellBlank r.folder
                                then pyOr (some c.lastFolder) title
                                else r.folder.getD ""))),
            pyOr (some (if cellBlank r.folder then pyOr (some c.lastFolder) title
                        else r.folder.getD "")) title⟩) := by
  simp [stepRow, h, hu]

/--
Claim C4, amended: a completely blank row is skipped and leaves every sticky
value unchanged; on every non-blank row the sticky fields name, method, URL,
base URL and path take the cell value when non-blank (which becomes the new
carried value) and reuse the carried value when blank — even when the row is
later dropped for lack of a URL — while the *folder* carry is updated only on
rows that resolve to a URL; defaults are method `GET`, folder = sheet title,
name = `"Unnamed"` when no prior value exists.
-/
theorem c4_sticky_amended :
    (∀ (ov : Option String) (title : String) (c : Carry) (n : Nat) (r : Row),
        rowAllBlank r = true → stepRow ov title c n r = (c, none)) ∧
    (∀ (ov : Option String) (title : String) (c : Carry) (n : Nat) (r : Row),
        rowAllBlank r = false →
        (stepRow ov title c n r).1.lastMethod =
            (if cellBlank r.method then c.lastMethod else r.method) ∧
        (stepRow ov title c n r).1.lastRawUrl =
            (if cellBlank r.url then c.lastRawUrl else r.url) ∧
        (stepRow ov title c n r).1.lastBaseUrl =
            (if cellBlank r.baseUrl then c.lastBaseUrl else r.baseUrl) ∧
        (stepRow ov title c n r).1.lastPath =
            (if cellBlank r.path then c.lastPath else r.path) ∧
        (stepRow ov title c n r).1.lastName = some (stickyNameVal c r)) ∧
    (∀ (ov : Option String) (title : String) (c : Carry) (n : Nat) (r : Row),
        rowAllBlank r = false →
        ((stepRow ov title c n r).2 = none →
            (stepRow ov title c n r).1.lastFolder = c.lastFolder) ∧
        (∀ e : Emit, (stepRow ov title c n r).2 = some e →
            (stepRow ov title c n r).1.lastFolder =
                (if cellBlank r.folder then c.lastFolder else r.folder.getD "") ∧
            e.method = upperStr (if cellBlank r.method then pyOr c.lastMethod "GET"
                                 else r.method.getD "") ∧
            e.name = stickyNameVal c r ∧
            e.folderName =
              pyOr (some (if cellBlank r.folder then pyOr (some c.lastFolder) title
                          else r.folder.getD "")) title)) ∧
    (∀ (ov : Option String) (title : String) (n : Nat) (r : Row),
        rowAllBlank r = false → cellBlank r.method = true →
        cellBlank r.name = true → cellBlank r.testcaseName = true →
        cellBlank r.folder = true →
        ∀ e : Emit, (stepRow ov title (initCarry title) n r).2 = some e →
            e.method = "GET" ∧ e.name = "Unnamed" ∧ e.folderName = title) := by
  refine ⟨?_, ?_, ?_, ?_⟩
  · intro ov title c n r h
    exact stepRow_blank h
  · intro ov title c n r h
    cases hu : resolveUrl ov (stickyCell r.url c.lastRawUrl)
        (stickyCell r.baseUrl c.lastBaseUrl) (stickyCell r.path c.lastPath)
    · rw [stepRow_no_url h hu]
      simp [stickyCell]
    · rw [stepRow_url h hu]
      simp [stickyCell]
  · intro ov title c n r h
    cases hu : resolveUrl ov (stickyCell r.url c.lastRawUrl)
        (stickyCell r.baseUrl c.lastBaseUrl) (stickyCell r.path c.lastPath) with
    | none =>
        rw [stepRow_no_url h hu]
        constructor
        · intro _; rfl
        · intro e he
          exact absurd he (by simp)
    | some u =>
        rw [stepRow_url h hu]
        constructor
        · intro hnone
          exact absurd hnone (by simp)
        · intro e he
          have he2 := Option.some.inj he
          subst he2
          refine ⟨rfl, rfl, rfl, rfl⟩
  · intro ov title n r h hm hn ht hf e he
    cases hu : resolveUrl ov (stickyCell r.url (initCarry title).lastRawUrl)
        (stickyCell r.baseUrl (initCarry title).lastBaseUrl)
        (stickyCell r.path (initCarry title).lastPath) with
    | none =>
        rw [stepRow_no_url h hu] at he
        exact absurd he (by simp)
    | some u =>
        rw [stepRow_url h hu] at he
        have he2 := Option.some.inj he
        subst he2
        refine ⟨?_, ?_, ?_⟩
        · simp [hm, initCarry, pyOr]
          decide
        · simp [stickyNameVal, hn, ht, initCarry, pyOr]
        · simp only [hf, if_true, initCarry]
          by_cases htitle : title = "" <;> simp [pyOr, htitle]

/-- A row with a non-blank (lower-case) method cell and a URL cell. -/
def c4wRow : Row :=
  ⟨none, none, some "post", some "http://a.example", none, none, none, []⟩

/--
Witness for the amended C4 at the spec's own sticky example: a non-blank
method cell `post` becomes the carried method value.
-/
theorem c4_witness :
    rowAllBlank c4wRow = false ∧
    (stepRow none "S" (initCarry "S") 2 c4wRow).1.lastMethod = some "post" := by
  refine ⟨by decide, ?_⟩
  have h := (c4_sticky_amended.2.1 none "S" (initCarry "S") 2 c4wRow (by decide)).1
  rw [h]
  decide

/--
`combined_query = {k: v for k, v in parse_qsl(...)}` / `dict.update`: insert or
overwrite one key in an insertion-ordered string dictionary — an existing key
keeps its position and gets the new value, a new key is appended at the end.
-/
def dictInsert (d : List (String × String)) (k v : String) :
    List (String × String) :=
  if d.any (fun p => p.1 == k) then
    d.map (fun p => if p.1 == k then (p.1, v) else p)
  else
    d ++ [(k, v)]

/-- Fold a pair list into an insertion-ordered dictionary update. -/
def dictUpdateList (d : List (String × String)) (ps : List (String × String)) :
    List (String × String) :=
  ps.foldl (fun acc p => dictInsert acc p.1 p.2) d

/--
The query merge of lines 386–391: the URL's existing query pairs are loaded
into a dict and the row's query parameters are applied with `dict.update`.
-/
def mergeQuery (existing rowParams : List (String × String)) :
    List (String × String) :=
  dictUpdateList existing rowParams

/--
The spec's description of the merge (§4.3 / §8): the existing pairs with row
values substituted in place on key collision, followed by the row pairs whose
keys are new, in row order.
-/
def specOverlay (existing rowParams : List (String × String)) :
    List (String × String) :=
  existing.map (fun p => (p.1, (rowParams.lookup p.1).getD p.2)) ++
    rowParams.filter (fun q => !(existing.any (fun p => p.1 == q.1)))

/-- Split a character list on a separator character. -/
def splitOnCharAux (sep : Char) : List Char → List Char → List (List Char)
  | [], acc => [acc.reverse]
  | c :: rest, acc =>
    if c == sep then acc.reverse :: splitOnCharAux sep rest []
    else splitOnCharAux sep rest (c :: acc)

/-- `str.split(sep)` for a one-character separator. -/
def splitOnChar (s : String) (sep : Char) : List String :=
  (splitOnCharAux sep s.data []).map String.mk

/-- `str.split(sep, 1)`: split at the first separator, if any. -/
def splitFirstAux (sep : Char) : List Char → List Char → Option (String × String)
  | [], _ => none
  | c :: rest, acc =>
    if c == sep then some (String.mk acc.reverse, String.mk rest)
    else splitFirstAux sep rest (c :: acc)

/-- `str.split(sep, 1)` returning the two halves when the separator occurs. -/
def splitFirst (s : String) (sep : Char) : Option (String × String) :=
  splitFirstAux sep s.data []

/--
`urllib.parse.parse_qsl` restricted to the plain (un-percent-encoded) inputs
this pipeline produces: split on `&`, split each segment at the first `=`,
drop segments without `=` and segments with an empty value
(`keep_blank_values=False`).
-/
def parseQsl (s : String) : List (String × String) :=
  (splitOnChar s '&').filterMap (fun seg =>
    match splitFirst seg '=' with
    | none => none
    | some (k, v) => if v == "" then none else some (k, v))

/-- `urllib.parse.urlencode` on plain pairs: `k=v` joined with `&`. -/
def urlencodePairs (ps : List (String × String)) : String :=
  match ps with
  | [] => ""
  | p :: rest =>
    rest.foldl (fun acc q => acc ++ "&" ++ q.1 ++ "=" ++ q.2) (p.1 ++ "=" ++ p.2)

/-- The merged query string for a URL query and row query parameters. -/
def mergeQueryString (query : String) (rowParams : List (String × String)) :
    String :=
  urlencodePairs (mergeQuery (dictUpdateList [] (parseQsl query)) rowParams)

theorem dictInsert_keys_eq (d : List (String × String)) (k v : String)
    (h : d.any (fun p => p.1 == k) = true) :
    (dictInsert d k v).map Prod.fst = d.map Prod.fst := by
  simp only [dictInsert, h, if_true, List.map_map]
  apply List.map_congr_left
  intro p _
  by_cases hp : p.1 = k <;> simp [hp]

theorem lookup_eq_none_of_not_mem_fst (l : List (String × String)) (a : String)
    (h : a ∉ l.map Prod.fst) : l.lookup a = none := by
  induction l with
  | nil => rfl
  | cons p t ih =>
      obtain ⟨k, v⟩ := p
      simp only [List.map_cons, List.mem_cons, not_or] at h
      have hb : (a == k) = false := by simp [h.1]
      simp only [List.lookup, hb]
      exact ih h.2

/--
Claim C5: merging a URL's existing query pairs with the row's query-parameter
mapping yields the existing pairs overlaid in place by the row's values (row
wins on key collision) followed by the row's new keys appended in order; in
particular existing query `a=1` merged with row params `a=2, b=3` yields
exactly `a=2&b=3`.
-/
theorem c5_query_merge :
    (∀ rowParams existing : List (String × String),
        (rowParams.map Prod.fst).Nodup →
        mergeQuery existing rowParams = specOverlay existing rowParams) ∧
    mergeQueryString "a=1" [("a", "2"), ("b", "3")] = "a=2&b=3" := by
  constructor
  · intro rowParams
    induction rowParams with
    | nil =>
        intro existing _
        simp [mergeQuery, dictUpdateList, specOverlay, List.lookup]
    | cons q row ih =>
        intro existing hnd
        obtain ⟨qk, qv⟩ := q
        simp only [List.map_cons, List.nodup_cons] at hnd
        obtain ⟨hq, hnd2⟩ := hnd
        have step : mergeQuery existing ((qk, qv) :: row) =
            mergeQuery (dictInsert existing qk qv) row := by
          simp [mergeQuery, dictUpdateList]
        rw [step, ih _ hnd2]
        have hlq : row.lookup qk = none := lookup_eq_none_of_not_mem_fst row qk hq
        by_cases hany : existing.any (fun p => p.1 == qk) = true
        · have hins : dictInsert existing qk qv =
              existing.map (fun p => if p.1 == qk then (p.1, qv) else p) := by
            simp [dictInsert, hany]
          rw [hins]
          unfold specOverlay
          congr 1
          · rw [List.map_map]
            apply List.map_congr_left
            intro p _
            by_cases hpq : p.1 = qk
            · have hb : (p.1 == qk) = true := by simp [hpq]
              simp [Function.comp, hb, List.lookup, hpq, hlq]
            · have hb : (p.1 == qk) = false := by simp [hpq]
              simp [Function.comp, hb, List.lookup]
          · rw [List.filter_cons_of_neg (by simp [hany])]
            apply List.filter_congr
            intro r _
            have hmapany : (existing.map
                  (fun p => if p.1 == qk then (p.1, qv) else p)).any
                    (fun p => p.1 == r.1) =
                existing.any (fun p => p.1 == r.1) := by
              rw [List.any_map]
              congr 1
              funext p
              by_cases hpq : p.1 = qk <;> simp [Function.comp, hpq]
            rw [hmapany]
        · have hins : dictInsert existing qk qv = existing ++ [(qk, qv)] := by
            simp [dictInsert, hany]
          rw [hins]
          unfold specOverlay
          rw [List.map_append, List.filter_cons_of_pos (by simp [hany])]
          have hmap1 : ([(qk, qv)] : List (String × String)).map
              (fun p => (p.1, (row.lookup p.1).getD p.2)) = [(qk, qv)] := by
            simp [hlq]
          rw [hmap1, List.append_assoc]
          congr 1
          · apply List.map_congr_left
            intro p hp
            have hpq : ¬p.1 = qk := by
              intro hcon
              have : existing.any (fun p => p.1 == qk) = true :=
                List.any_eq_true.2 ⟨p, hp, by simp [hcon]⟩
              exact hany this
            have hb : (p.1 == qk) = false := by simp [hpq]
            simp [List.lookup, hb]
          · rw [List.singleton_append]
            congr 1
            apply List.filter_congr
            intro r hr
            have hrq : ¬qk = r.1 := by
              intro hcon
              exact hq (hcon ▸ (List.mem_map.2 ⟨r, hr, rfl⟩))
            simp [hrq]
  · decide

/-- Witness for C5 at the spec's own example, with duplicate-free row keys. -/
theorem c5_witness :
    ((([("a", "2"), ("b", "3")] : List (String × String)).map Prod.fst).Nodup ∧
      mergeQuery [("a", "1")] [("a", "2"), ("b", "3")] =
        specOverlay [("a", "1")] [("a", "2"), ("b", "3")]) ∧
    mergeQueryString "a=1" [("a", "2"), ("b", "3")] = "a=2&b=3" := by
  refine ⟨⟨by decide, c5_query_merge.1 [("a", "2"), ("b", "3")] [("a", "1")]
    (by decide)⟩, c5_query_merge.2⟩

/-- `_escape_js_string`: escape backslashes, then single quotes. -/
def escapeJs (s : String) : String :=
  replaceStr (replaceStr s bsl (bsl ++ bsl)) sq (bsl ++ sq)

/-- The fixed prefix of every generated `pm.test(...)` header line. -/
def thPre : String := "pm.test(" ++ sq

/-- The fixed suffix of every generated `pm.test(...)` header line. -/
def thSuf : String := sq ++ ", function () \x7b"

/-- A `pm.test('<name>', function () {` header line. -/
def testHeader (n : String) : String := thPre ++ n ++ thSuf

/-- The test name of the JSON-validity check. -/
def validJsonName : String := "Response is valid JSON"

/-- The header line of the JSON-validity check (line 109). -/
def validJsonHeader : String := testHeader validJsonName

/-- The `pm.expect(jsonData, 'Response JSON')...` guard line. -/
def expectNotNullLine : String :=
  "    pm.expect(jsonData, " ++ sq ++ "Response JSON" ++ sq ++ ").to.not.be.null;"

/-- A `    pm.expect(<rest>` assertion line. -/
def expectLine (rest : String) : String := "    pm.expect(" ++ rest

/-- The `});` line closing a pm.test block. -/
def closeLine : String := "\x7d);"

/-- The fixed opening of `_build_assertion_tests` (lines 102–112). -/
def jsonPrelude : List String :=
  [ "let jsonData = null;",
    "try \x7b",
    "    jsonData = pm.response.json();",
    "\x7d catch (e) \x7b",
    "    jsonData = null;",
    "\x7d",
    validJsonHeader,
    expectNotNullLine,
    closeLine ]

/--
One operator entry of an assertion specification.  `display` is the Python
`str(expected)` interpolated into the test name; `literal` is the
`json.dumps(expected)` interpolated into the expect expression.
-/
structure Cond where
  op : String
  display : String
  literal : String
deriving DecidableEq

/-- A four-line pm.test block as emitted for one recognized operator. -/
def assertBlock (nm e2 : String) : List String :=
  [testHeader nm, expectNotNullLine, e2, closeLine]

/-- `value_expr = f"_.get(jsonData, '{field_path}')"` (line 118). -/
def valueExpr (fieldPath : String) : String :=
  "_.get(jsonData, " ++ sq ++ fieldPath ++ sq ++ ")"

/-- The operator dispatch on the lowered operator name (`op_lower`),
lines 119–198. -/
def condDispatch (field ve : String) (c : Cond) (ol : String) : List String :=
  if ["equals", "equal", "eq", "=="].contains ol then
    assertBlock (field ++ " equals " ++ c.display)
      (expectLine (ve ++ ").to.eql(" ++ c.literal ++ ");"))
  else if ["notequals", "not_equals", "!=", "ne"].contains ol then
    assertBlock (field ++ " not equals " ++ c.display)
      (expectLine (ve ++ ").to.not.eql(" ++ c.literal ++ ");"))
  else if ["notempty", "not_empty"].contains ol then
    assertBlock (field ++ " is not empty")
      (expectLine (ve ++ ").to.not.be.empty;"))
  else if ["greaterthanorequal", "greater_than_or_equal", "gte"].contains ol then
    assertBlock (field ++ " >= " ++ c.display)
      (expectLine (ve ++ ").to.be.at.least(" ++ c.literal ++ ");"))
  else if ["greaterthan", "greater_than", "gt"].contains ol then
    assertBlock (field ++ " > " ++ c.display)
      (expectLine (ve ++ ").to.be.above(" ++ c.literal ++ ");"))
  else if ["lessthanorequal", "less_than_or_equal", "lte"].contains ol then
    assertBlock (field ++ " <= " ++ c.display)
      (expectLine (ve ++ ").to.be.at.most(" ++ c.literal ++ ");"))
  else if ["lessthan", "less_than", "lt"].contains ol then
    assertBlock (field ++ " < " ++ c.display)
      (expectLine (ve ++ ").to.be.below(" ++ c.literal ++ ");"))
  else if ["contains", "includes"].contains ol then
    assertBlock (field ++ " contains " ++ c.display)
      (expectLine (ve ++ ").to.include(" ++ c.literal ++ ");"))
  else if ["true", "istrue"].contains ol then
    assertBlock (field ++ " is true")
      (expectLine (ve ++ ").to.be.true;"))
  else if ["false", "isfalse"].contains ol then
    assertBlock (field ++ " is false")
      (expectLine (ve ++ ").to.be.false;"))
  else if ["exists"].contains ol then
    assertBlock (field ++ " exists")
      (expectLine (ve ++ ").to.not.be.undefined;"))
  else []

/-- The lines emitted for one operator entry (`op_lower = str(op).lower()`). -/
def condLines (field ve : String) (c : Cond) : List String :=
  condDispatch field ve c (lowerStr c.op)

/-- All lines emitted for one assertion field (lines 114–118 drive the loop). -/
def fieldLines (f : String × List Cond) : List String :=
  f.2.flatMap (condLines f.1 (valueExpr (escapeJs f.1)))

/-- `_build_assertion_tests`: the prelude, then per-field operator blocks. -/
def buildAssertionTests (ad : List (String × List Cond)) : List String :=
  jsonPrelude ++ ad.flatMap fieldLines

/-- The status-code assertion lines (lines 450–455), when a status exists. -/
def statusLines : Option Int → List String
  | none => []
  | some n =>
    [testHeader ("Status code is " ++ toString n),
     "    pm.response.to.have.status(" ++ toString n ++ ");",
     closeLine]

/--
Test-script assembly (lines 449–458): the status assertion first, then — only
when the assertion specification is non-empty — the `_build_assertion_tests`
output.
-/
def buildTestScript (es : Option Int) (ad : List (String × List Cond)) :
    List String :=
  statusLines es ++ (if ad.isEmpty then [] else buildAssertionTests ad)

/-- The number of JSON-validity check header lines in a script. -/
def countValid (s : List String) : Nat :=
  s.countP (fun l => l == validJsonHeader)

theorem testHeader_inj {a b : String} (h : testHeader a = testHeader b) :
    a = b := by
  unfold testHeader at h
  have hd := congrArg String.data h
  simp only [String.data_append, List.append_assoc] at hd
  have h2 := List.append_cancel_left hd
  have h3 := List.append_cancel_right h2
  cases a
  cases b
  exact congrArg String.mk h3

theorem head?_append_of_ne_nil (s t : String) (h : s.data ≠ []) :
    (s ++ t).data.head? = s.data.head? := by
  rw [String.data_append]
  cases hs : s.data with
  | nil => exact absurd hs h
  | cons a l => rfl

theorem ne_of_head_append (s t u : String) (c d : Char)
    (hs : s.data.head? = some c) (hu : u.data.head? = some d) (hcd : c ≠ d) :
    s ++ t ≠ u := by
  intro h
  have hd : (s ++ t).data = u.data := congrArg String.data h
  have h2 : (s ++ t).data.head? = some c := by
    rw [head?_append_of_ne_nil s t ?_, hs]
    intro hnil
    rw [hnil] at hs
    exact Option.noConfusion hs
  rw [hd, hu] at h2
  exact hcd (Option.some.inj h2).symm

theorem append3_ne_of_not_inside (mid target : String)
    (h : ¬ mid.data <:+: target.data) :
    ∀ a b : String, a ++ mid ++ b ≠ target := by
  intro a b hcon
  apply h
  refine ⟨a.data, b.data, ?_⟩
  have hd := congrArg String.data hcon
  simp only [String.data_append] at hd
  exact hd

theorem append2_ne_of_not_suffix (mid target : String)
    (h : ¬ mid.data <:+ target.data) :
    ∀ a : String, a ++ mid ≠ target := by
  intro a hcon
  apply h
  refine ⟨a.data, ?_⟩
  have hd := congrArg String.data hcon
  simp only [String.data_append] at hd
  exact hd

theorem name_ne_valid_of_mid (mid : String)
    (h : ¬ mid.data <:+: validJsonName.data) (a b : String) :
    testHeader (a ++ mid ++ b) ≠ validJsonHeader := by
  intro hcon
  exact append3_ne_of_not_inside mid validJsonName h a b (testHeader_inj hcon)

theorem name_ne_valid_of_suffix (mid : String)
    (h : ¬ mid.data <:+ validJsonName.data) (a : String) :
    testHeader (a ++ mid) ≠ validJsonHeader := by
  intro hcon
  exact append2_ne_of_not_suffix mid validJsonName h a (testHeader_inj hcon)

theorem name_ne_valid_of_head (a b : String) (c : Char)
    (ha : a.data.head? = some c) (hc : c ≠ 'R') :
    testHeader (a ++ b) ≠ validJsonHeader := by
  intro hcon
  exact ne_of_head_append a b validJsonName c 'R' ha (by decide) hc
    (testHeader_inj hcon)

theorem expectLine_ne_valid (r : String) : expectLine r ≠ validJsonHeader :=
  ne_of_head_append "    pm.expect(" r validJsonHeader ' ' 'p' (by decide)
    (by decide) (by decide)

theorem statusCall_ne_valid (n : Int) :
    ("    pm.response.to.have.status(" ++ toString n ++ ");") ≠
      validJsonHeader := by
  apply ne_of_head_append _ _ _ ' ' 'p' ?_ (by decide) (by decide)
  rw [head?_append_of_ne_nil "    pm.response.to.have.status(" (toString n)
      (by decide)]
  decide

theorem countValid_assertBlock (nm e2 : String)
    (hn : testHeader nm ≠ validJsonHeader) (he : e2 ≠ validJsonHeader) :
    countValid (assertBlock nm e2) = 0 := by
  have h2 : expectNotNullLine ≠ validJsonHeader := by decide
  have h3 : closeLine ≠ validJsonHeader := by decide
  simp [countValid, assertBlock, List.countP_cons, hn, he, h2, h3]

theorem countValid_condLines (field ve : String) (c : Cond) :
    countValid (condLines field ve c) = 0 := by
  unfold condLines condDispatch
  by_cases h1 : (["equals", "equal", "eq", "=="].contains (lowerStr c.op)) = true
  · rw [if_pos h1]
    exact countValid_assertBlock _ _
      (name_ne_valid_of_mid " equals " (by decide) field c.display)
      (expectLine_ne_valid _)
  · rw [if_neg h1]
    by_cases h2 : (["notequals", "not_equals", "!=", "ne"].contains (lowerStr c.op)) = true
    · rw [if_pos h2]
      exact countValid_assertBlock _ _
        (name_ne_valid_of_mid " not equals " (by decide) field c.display)
        (expectLine_ne_valid _)
    · rw [if_neg h2]
      by_cases h3 : (["notempty", "not_empty"].contains (lowerStr c.op)) = true
      · rw [if_pos h3]
        exact countValid_assertBlock _ _
          (name_ne_valid_of_suffix " is not empty" (by decide) field)
          (expectLine_ne_valid _)
      · rw [if_neg h3]
        by_cases h4 : (["greaterthanorequal", "greater_than_or_equal", "gte"].contains (lowerStr c.op)) = true
        · rw [if_pos h4]
          exact countValid_assertBlock _ _
            (name_ne_valid_of_mid " >= " (by decide) field c.display)
            (expectLine_ne_valid _)
        · rw [if_neg h4]
          by_cases h5 : (["greaterthan", "greater_than", "gt"].contains (lowerStr c.op)) = true
          · rw [if_pos h5]
            exact countValid_assertBlock _ _
              (name_ne_valid_of_mid " > " (by decide) field c.display)
              (expectLine_ne_valid _)
          · rw [if_neg h5]
            by_cases h6 : (["lessthanorequal", "less_than_or_equal", "lte"].contains (lowerStr c.op)) = true
            · rw [if_pos h6]
              exact countValid_assertBlock _ _
                (name_ne_valid_of_mid " <= " (by decide) field c.display)
                (expectLine_ne_valid _)
            · rw [if_neg h6]
              by_cases h7 : (["lessthan", "less_than", "lt"].contains (lowerStr c.op)) = true
              · rw [if_pos h7]
                exact countValid_assertBlock _ _
                  (name_ne_valid_of_mid " < " (by decide) field c.display)
                  (expectLine_ne_valid _)
              · rw [if_neg h7]
                by_cases h8 : (["contains", "includes"].contains (lowerStr c.op)) = true
                · rw [if_pos h8]
                  exact countValid_assertBlock _ _
                    (name_ne_valid_of_mid " contains " (by decide) field c.display)
                    (expectLine_ne_valid _)
                · rw [if_neg h8]
                  by_cases h9 : (["true", "istrue"].contains (lowerStr c.op)) = true
                  · rw [if_pos h9]
                    exact countValid_assertBlock _ _
                      (name_ne_valid_of_suffix " is true" (by decide) field)
                      (expectLine_ne_valid _)
                  · rw [if_neg h9]
                    by_cases h10 : (["false", "isfalse"].contains (lowerStr c.op)) = true
                    · rw [if_pos h10]
                      exact countValid_assertBlock _ _
                        (name_ne_valid_of_suffix " is false" (by decide) field)
                        (expectLine_ne_valid _)
                    · rw [if_neg h10]
                      by_cases h11 : (["exists"].contains (lowerStr c.op)) = true
                      · rw [if_pos h11]
                        exact countValid_assertBlock _ _
                          (name_ne_valid_of_suffix " exists" (by decide) field)
                          (expectLine_ne_valid _)
                      · rw [if_neg h11]
                        rfl

theorem countValid_append (a b : List String) :
    countValid (a ++ b) = countValid a + countValid b := by
  simp [countValid, List.countP_append]

theorem countValid_fieldLines (f : String × List Cond) :
    countValid (fieldLines f) = 0 := by
  unfold fieldLines
  induction f.2 with
  | nil => rfl
  | cons c t ih =>
      rw [List.flatMap_cons, countValid_append, ih, countValid_condLines]

theorem countValid_fields (ad : List (String × List Cond)) :
    countValid (ad.flatMap fieldLines) = 0 := by
  induction ad with
  | nil => rfl
  | cons f t ih =>
      rw [List.flatMap_cons, countValid_append, ih, countValid_fieldLines]

theorem countValid_statusLines (es : Option Int) :
    countValid (statusLines es) = 0 := by
  cases es with
  | none => rfl
  | some n =>
      have h1 : testHeader ("Status code is " ++ toString n) ≠ validJsonHeader :=
        name_ne_valid_of_head "Status code is " (toString n) 'S' (by decide)
          (by decide)
      have h2 := statusCall_ne_valid n
      have h3 : closeLine ≠ validJsonHeader := by decide
      simp [countValid, statusLines, List.countP_cons, h1, h2, h3]

/--
Claim C2, amended: the "Response is valid JSON" check is emitted exactly once
per compiled request *whose assertion specification is non-empty*, positioned
after the status assertion (when one exists) and before every field assertion;
a request whose assertion specification is empty gets no JSON-validity check,
even when an expected status is present.
-/
theorem c2_valid_json_check_amended :
    ∀ (es : Option Int) (ad : List (String × List Cond)),
      buildTestScript es ad =
          statusLines es ++
            (if ad.isEmpty then [] else jsonPrelude ++ ad.flatMap fieldLines) ∧
      countValid (statusLines es) = 0 ∧
      countValid jsonPrelude = 1 ∧
      countValid (ad.flatMap fieldLines) = 0 ∧
      countValid (buildTestScript es ad) = (if ad.isEmpty then 0 else 1) := by
  intro es ad
  have hpre : countValid jsonPrelude = 1 := by decide
  refine ⟨by simp [buildTestScript, buildAssertionTests], countValid_statusLines es,
    hpre, countValid_fields ad, ?_⟩
  have hassert : countValid (buildAssertionTests ad) = 1 := by
    unfold buildAssertionTests
    rw [countValid_append, hpre, countValid_fields]
  unfold buildTestScript
  rw [countValid_append, countValid_statusLines es]
  cases had : ad.isEmpty with
  | false => simp [hassert]
  | true => simp [countValid]

/--
Counterexample to claim C2 as stated: a compiled request with expected status
200 and no assertion specification gets a test script with *zero*
JSON-validity checks — the check is not emitted unconditionally (and when it
is emitted, the decomposition above places it after the status assertion, not
before it).
-/
theorem c2_counterexample :
    buildTestScript (some 200) [] =
        [testHeader ("Status code is " ++ toString (200 : Int)),
         "    pm.response.to.have.status(" ++ toString (200 : Int) ++ ");",
         closeLine] ∧
    countValid (buildTestScript (some 200) []) = 0 := by
  constructor
  · rfl
  · decide

/-- The `expected_status` synonym list of `SYNONYMS` (line 17). -/
def expectedStatusSyns : List String :=
  ["expectedstatus", "expected_status", "status", "expected", "expectedcode",
   "code"]

/-- The `id` synonym list of `SYNONYMS` (line 23). -/
def idSyns : List String :=
  ["id", "testcaseid", "testcase_id", "test_id", "tcid"]

/-- First index (counting from `k`) of an element satisfying `p`. -/
def firstIdxFrom {α : Type} (p : α → Bool) : List α → Nat → Option Nat
  | [], _ => none
  | x :: t, k => if p x then some k else firstIdxFrom p t (k + 1)

/-- `find_col(name)` (lines 526–534): 1-based index of the first header cell
whose value equals `nm` exactly (no normalization). -/
def findCol (h : List Cell) (nm : String) : Option Nat :=
  firstIdxFrom (fun c => c == some nm) h 1

/--
The synonym scan of lines 512–523: for the first synonym whose normalized form
occurs among the normalized headers, the 1-based index of its first occurrence.
-/
def synIndex (h : List Cell) (syns : List String) : Option Nat :=
  syns.findSome? (fun syn =>
    (firstIdxFrom (fun x => x == pyNorm (some syn)) (h.map pyNorm) 0).map (· + 1))

/-- `sheet.insert_cols(pos, amount)` applied to one row of cells (1-based). -/
def insertColsList (r : List Cell) (pos amount : Nat) : List Cell :=
  r.take (pos - 1) ++ List.replicate amount none ++ r.drop (pos - 1)

/-- `sheet.cell(row, pos).value = v` on one row of cells (1-based positions),
extending the row with empty cells if the position lies beyond its end. -/
def setCol (r : List Cell) (pos : Nat) (v : Cell) : List Cell :=
  (r ++ List.replicate (pos - r.length) none).set (pos - 1) v

/-- The outcome of result-column placement for one sheet. -/
structure Placed where
  header : List Cell
  rows : List (List Cell)
  aIdx : Nat
  sIdx : Nat
deriving DecidableEq

/--
Result-column resolution and insertion, lines 536–569.  `h` is the header row,
`rows` the data rows (a column insertion shifts every row).  The sheet's
`max_column` is modelled as the header length (the header is the widest row in
the sheets modelled here).  Mirrors the source exactly: the expected-status
index and the (possibly stale) branch structure, including the re-lookup of
`Status` after inserting `ActualStatus`.
-/
def placeResultColsG (h : List Cell) (rows : List (List Cell)) : Placed :=
  match synIndex h expectedStatusSyns with
  | some e =>
    match findCol h "ActualStatus", findCol h "Status" with
    | none, none =>
        ⟨setCol (setCol (insertColsList h (e + 1) 2) (e + 1)
              (some "ActualStatus")) (e + 2) (some "Status"),
          rows.map (fun r => insertColsList r (e + 1) 2), e + 1, e + 2⟩
    | a0, _ =>
        let h1 := match a0 with
          | none => setCol (insertColsList h (e + 1) 1) (e + 1)
              (some "ActualStatus")
          | some _ => h
        let rows1 := match a0 with
          | none => rows.map (fun r => insertColsList r (e + 1) 1)
          | some _ => rows
        let aIdx := match a0 with
          | none => e + 1
          | some a => a
        match findCol h1 "Status" with
        | none =>
            ⟨setCol (insertColsList h1 (aIdx + 1) 1) (aIdx + 1) (some "Status"),
              rows1.map (fun r => insertColsList r (aIdx + 1) 1), aIdx, aIdx + 1⟩
        | some s2 => ⟨h1, rows1, aIdx, s2⟩
  | none =>
    match findCol h "ActualStatus", findCol h "Status" with
    | none, none =>
        ⟨setCol (setCol h (h.length + 1) (some "ActualStatus")) (h.length + 2)
            (some "Status"),
          rows, h.length + 1, h.length + 2⟩
    | none, some s => ⟨setCol h (h.length + 1) (some "ActualStatus"), rows,
        h.length + 1, s⟩
    | some a, none => ⟨setCol h (h.length + 1) (some "Status"), rows, a,
        h.length + 1⟩
    | some a, some s => ⟨h, rows, a, s⟩

theorem firstIdxFrom_bounds {α : Type} (p : α → Bool) (l : List α) :
    ∀ k j, firstIdxFrom p l k = some j → k ≤ j ∧ j < k + l.length := by
  induction l with
  | nil => intro k j hj; exact absurd hj (by simp [firstIdxFrom])
  | cons x t ih =>
      intro k j hj
      unfold firstIdxFrom at hj
      by_cases hx : p x = true
      · rw [if_pos hx] at hj
        obtain rfl := Option.some.inj hj
        exact ⟨Nat.le_refl _, by simp⟩
      · rw [if_neg hx] at hj
        obtain ⟨h1, h2⟩ := ih (k + 1) j hj
        refine ⟨by omega, ?_⟩
        simp only [List.length_cons]
        omega

theorem firstIdxFrom_isSome {α : Type} (p : α → Bool) (l : List α) (x : α)
    (hx : x ∈ l) (hp : p x = true) :
    ∀ k, ∃ j, firstIdxFrom p l k = some j := by
  induction l with
  | nil => cases hx
  | cons y t ih =>
      intro k
      by_cases hy : p y = true
      · exact ⟨k, by simp [firstIdxFrom, hy]⟩
      · have hxt : x ∈ t := by
          rcases List.mem_cons.1 hx with h1 | h1
          · exact absurd (h1 ▸ hp) hy
          · exact h1
        obtain ⟨j, hj⟩ := ih hxt (k + 1)
        exact ⟨j, by simp [firstIdxFrom, hy, hj]⟩

theorem exists_mem_of_firstIdxFrom {α : Type} (p : α → Bool) (l : List α) :
    ∀ k j, firstIdxFrom p l k = some j → ∃ x ∈ l, p x = true := by
  induction l with
  | nil => intro k j hj; exact absurd hj (by simp [firstIdxFrom])
  | cons y t ih =>
      intro k j hj
      unfold firstIdxFrom at hj
      by_cases hy : p y = true
      · exact ⟨y, by simp, hy⟩
      · rw [if_neg hy] at hj
        obtain ⟨x, hx, hp⟩ := ih (k + 1) j hj
        exact ⟨x, by simp [hx], hp⟩

theorem findCol_le_length (h : List Cell) (nm : String) (a : Nat)
    (ha : findCol h nm = some a) : 1 ≤ a ∧ a ≤ h.length := by
  obtain ⟨h1, h2⟩ := firstIdxFrom_bounds _ h 1 a ha
  exact ⟨h1, by omega⟩

theorem mem_of_findCol (h : List Cell) (nm : String) (a : Nat)
    (ha : findCol h nm = some a) : (some nm : Cell) ∈ h := by
  obtain ⟨x, hx, hp⟩ := exists_mem_of_firstIdxFrom _ h 1 a ha
  have : x = some nm := by simpa using hp
  exact this ▸ hx

theorem findCol_isSome_of_mem (h : List Cell) (nm : String)
    (hmem : (some nm : Cell) ∈ h) : ∃ j, findCol h nm = some j :=
  firstIdxFrom_isSome _ h (some nm) hmem (by simp) 1

theorem synIndex_le_length (h : List Cell) (syns : List String) (e : Nat)
    (hE : synIndex h syns = some e) : 1 ≤ e ∧ e ≤ h.length := by
  obtain ⟨syn, _, hval⟩ := List.exists_of_findSome?_eq_some hE
  cases hidx : firstIdxFrom (fun x => x == pyNorm (some syn)) (h.map pyNorm) 0 with
  | none => rw [hidx] at hval; exact absurd hval (by simp)
  | some i =>
      rw [hidx] at hval
      have hie : i + 1 = e := by simpa using hval
      obtain ⟨_, h2⟩ := firstIdxFrom_bounds _ _ 0 i hidx
      rw [List.length_map] at h2
      omega

theorem set_append_left_length {α : Type} (l1 l2 : List α) (v : α) :
    (l1 ++ l2).set l1.length v = l1 ++ l2.set 0 v := by
  induction l1 with
  | nil => simp
  | cons a t ih =>
      simp only [List.cons_append, List.length_cons, List.set_cons_succ]
      rw [ih]

theorem set_append_eq {α : Type} (l1 l2 : List α) (v : α) (n : Nat)
    (hn : n = l1.length) : (l1 ++ l2).set n v = l1 ++ l2.set 0 v := by
  subst hn
  exact set_append_left_length l1 l2 v

theorem insert1_set (h : List Cell) (e : Nat) (he : e ≤ h.length) (v : Cell) :
    setCol (insertColsList h (e + 1) 1) (e + 1) v =
      h.take e ++ v :: h.drop e := by
  have hlen : (h.take e ++ List.replicate 1 (none : Cell) ++ h.drop e).length =
      h.length + 1 := by
    simp only [List.length_append, List.length_take, List.length_replicate,
      List.length_drop]
    omega
  unfold setCol insertColsList
  simp only [Nat.add_sub_cancel]
  rw [hlen]
  have hz : e + 1 - (h.length + 1) = 0 := by omega
  rw [hz, List.replicate_zero, List.append_nil, List.append_assoc]
  rw [set_append_eq (h.take e) (List.replicate 1 none ++ h.drop e) v e
    (by rw [List.length_take]; omega)]
  rfl

theorem insert2_set (h : List Cell) (e : Nat) (he : e ≤ h.length) (v w : Cell) :
    setCol (setCol (insertColsList h (e + 1) 2) (e + 1) v) (e + 2) w =
      h.take e ++ v :: w :: h.drop e := by
  have hlen : (h.take e ++ List.replicate 2 (none : Cell) ++ h.drop e).length =
      h.length + 2 := by
    simp only [List.length_append, List.length_take, List.length_replicate,
      List.length_drop]
    omega
  unfold setCol insertColsList
  simp only [Nat.add_sub_cancel]
  rw [hlen]
  have hz : e + 1 - (h.length + 2) = 0 := by omega
  rw [hz, List.replicate_zero, List.append_nil, List.append_assoc]
  rw [set_append_eq (h.take e) (List.replicate 2 none ++ h.drop e) v e
    (by rw [List.length_take]; omega)]
  have hstep1 : (List.replicate 2 (none : Cell) ++ h.drop e).set 0 v =
      v :: none :: h.drop e := rfl
  rw [hstep1]
  have hlen2 : (h.take e ++ v :: none :: h.drop e).length = h.length + 2 := by
    simp only [List.length_append, List.length_take, List.length_cons,
      List.length_drop]
    omega
  rw [hlen2]
  have hz2 : e + 2 - (h.length + 2) = 0 := by omega
  rw [hz2, List.replicate_zero, List.append_nil]
  have hassoc : h.take e ++ v :: none :: h.drop e =
      (h.take e ++ [v]) ++ none :: h.drop e := by simp
  rw [hassoc]
  rw [set_append_eq (h.take e ++ [v]) (none :: h.drop e) w (e + 2 - 1)
    (by simp only [List.length_append, List.length_take, List.length_cons,
        List.length_nil]; omega)]
  simp

theorem setCol_append (l : List Cell) (v : Cell) :
    setCol l (l.length + 1) v = l ++ [v] := by
  unfold setCol
  have hz : l.length + 1 - l.length = 1 := by omega
  rw [hz, Nat.add_sub_cancel]
  rw [set_append_eq l (List.replicate 1 none) v l.length rfl]
  rfl

theorem mem_take_cons_drop {x y : Cell} (h : List Cell) (e : Nat) (hx : x ∈ h) :
    x ∈ h.take e ++ y :: h.drop e := by
  have hx2 : x ∈ h.take e ++ h.drop e := by
    rw [List.take_append_drop]
    exact hx
  rcases List.mem_append.1 hx2 with h1 | h1
  · exact List.mem_append.2 (Or.inl h1)
  · exact List.mem_append.2 (Or.inr (List.mem_cons.2 (Or.inr h1)))

theorem place_both (h : List Cell) (rows : List (List Cell)) (a s : Nat)
    (ha : findCol h "ActualStatus" = some a)
    (hs : findCol h "Status" = some s) :
    placeResultColsG h rows = ⟨h, rows, a, s⟩ := by
  unfold placeResultColsG
  cases hE : synIndex h expectedStatusSyns with
  | none => simp [ha, hs]
  | some e => simp [ha, hs]

theorem place_missing_status (h : List Cell) (rows : List (List Cell))
    (e a : Nat) (hE : synIndex h expectedStatusSyns = some e)
    (ha : findCol h "ActualStatus" = some a)
    (hs : findCol h "Status" = none) :
    placeResultColsG h rows =
      ⟨h.take a ++ some "Status" :: h.drop a,
        rows.map (fun r => insertColsList r (a + 1) 1), a, a + 1⟩ := by
  have hb := findCol_le_length h "ActualStatus" a ha
  unfold placeResultColsG
  rw [hE]
  simp only [ha, hs]
  rw [insert1_set h a hb.2 (some "Status")]

theorem place_missing_actual (h : List Cell) (rows : List (List Cell))
    (e s : Nat) (hE : synIndex h expectedStatusSyns = some e)
    (ha : findCol h "ActualStatus" = none)
    (hs : findCol h "Status" = some s) :
    ∃ s2, placeResultColsG h rows =
      ⟨h.take e ++ some "ActualStatus" :: h.drop e,
        rows.map (fun r => insertColsList r (e + 1) 1), e + 1, s2⟩ := by
  have hbe := synIndex_le_length h expectedStatusSyns e hE
  have hmem : (some "Status" : Cell) ∈ h := mem_of_findCol h "Status" s hs
  have hmem1 : (some "Status" : Cell) ∈
      h.take e ++ some "ActualStatus" :: h.drop e :=
    mem_take_cons_drop h e hmem
  obtain ⟨j, hj⟩ := findCol_isSome_of_mem _ _ hmem1
  refine ⟨j, ?_⟩
  unfold placeResultColsG
  rw [hE]
  simp only [ha, hs]
  rw [insert1_set h e hbe.2 (some "ActualStatus"), hj]

theorem place_insert_both (h : List Cell) (rows : List (List Cell)) (e : Nat)
    (hE : synIndex h expectedStatusSyns = some e)
    (ha : findCol h "ActualStatus" = none)
    (hs : findCol h "Status" = none) :
    placeResultColsG h rows =
      ⟨h.take e ++ some "ActualStatus" :: some "Status" :: h.drop e,
        rows.map (fun r => insertColsList r (e + 1) 2), e + 1, e + 2⟩ := by
  have hbe := synIndex_le_length h expectedStatusSyns e hE
  unfold placeResultColsG
  rw [hE]
  simp only [ha, hs]
  rw [insert2_set h e hbe.2]

theorem place_append_both (h : List Cell) (rows : List (List Cell))
    (hE : synIndex h expectedStatusSyns = none)
    (ha : findCol h "ActualStatus" = none)
    (hs : findCol h "Status" = none) :
    placeResultColsG h rows =
      ⟨h ++ [some "ActualStatus", some "Status"], rows, h.length + 1,
        h.length + 2⟩ := by
  unfold placeResultColsG
  rw [hE]
  simp only [ha, hs]
  rw [setCol_append h (some "ActualStatus")]
  have hl : h.length + 2 = (h ++ [some "ActualStatus"]).length + 1 := by simp
  rw [hl, setCol_append]
  simp

theorem place_append_status (h : List Cell) (rows : List (List Cell)) (a : Nat)
    (hE : synIndex h expectedStatusSyns = none)
    (ha : findCol h "ActualStatus" = some a)
    (hs : findCol h "Status" = none) :
    placeResultColsG h rows = ⟨h ++ [some "Status"], rows, a, h.length + 1⟩ := by
  unfold placeResultColsG
  rw [hE]
  simp only [ha, hs]
  rw [setCol_append h (some "Status")]

theorem place_append_actual (h : List Cell) (rows : List (List Cell)) (s : Nat)
    (hE : synIndex h expectedStatusSyns = none)
    (ha : findCol h "ActualStatus" = none)
    (hs : findCol h "Status" = some s) :
    placeResultColsG h rows =
      ⟨h ++ [some "ActualStatus"], rows, h.length + 1, s⟩ := by
  unfold placeResultColsG
  rw [hE]
  simp only [ha, hs]
  rw [setCol_append h (some "ActualStatus")]

theorem place_both_present (h : List Cell) (rows : List (List Cell)) :
    (∃ a, findCol (placeResultColsG h rows).header "ActualStatus" = some a) ∧
    (∃ s, findCol (placeResultColsG h rows).header "Status" = some s) := by
  cases hE : synIndex h expectedStatusSyns with
  | some e =>
      cases ha : findCol h "ActualStatus" with
      | none =>
          cases hs : findCol h "Status" with
          | none =>
              rw [place_insert_both h rows e hE ha hs]
              exact ⟨findCol_isSome_of_mem _ _ (by simp),
                findCol_isSome_of_mem _ _ (by simp)⟩
          | some s =>
              obtain ⟨s2, hp⟩ := place_missing_actual h rows e s hE ha hs
              rw [hp]
              exact ⟨findCol_isSome_of_mem _ _ (by simp),
                findCol_isSome_of_mem _ _
                  (mem_take_cons_drop h e (mem_of_findCol h "Status" s hs))⟩
      | some a =>
          cases hs : findCol h "Status" with
          | none =>
              rw [place_missing_status h rows e a hE ha hs]
              exact ⟨findCol_isSome_of_mem _ _
                  (mem_take_cons_drop h a
                    (mem_of_findCol h "ActualStatus" a ha)),
                findCol_isSome_of_mem _ _ (by simp)⟩
          | some s =>
              rw [place_both h rows a s ha hs]
              exact ⟨⟨a, ha⟩, ⟨s, hs⟩⟩
  | none =>
      cases ha : findCol h "ActualStatus" with
      | none =>
          cases hs : findCol h "Status" with
          | none =>
              rw [place_append_both h rows hE ha hs]
              exact ⟨findCol_isSome_of_mem _ _ (by simp),
                findCol_isSome_of_mem _ _ (by simp)⟩
          | some s =>
              rw [place_append_actual h rows s hE ha hs]
              refine ⟨findCol_isSome_of_mem _ _ (by simp),
                findCol_isSome_of_mem _ _ ?_⟩
              show (some "Status" : Cell) ∈ h ++ [some "ActualStatus"]
              exact List.mem_append.2 (Or.inl (mem_of_findCol h "Status" s hs))
      | some a =>
          cases hs : findCol h "Status" with
          | none =>
              rw [place_append_status h rows a hE ha hs]
              refine ⟨findCol_isSome_of_mem _ _ ?_,
                findCol_isSome_of_mem _ _ (by simp)⟩
              show (some "ActualStatus" : Cell) ∈ h ++ [some "Status"]
              exact List.mem_append.2
                (Or.inl (mem_of_findCol h "ActualStatus" a ha))
          | some s =>
              rw [place_both h rows a s ha hs]
              exact ⟨⟨a, ha⟩, ⟨s, hs⟩⟩

/--
Claim C6, amended: result-column placement is idempotent — if both
`ActualStatus` and `Status` header cells exist, nothing is inserted (running
the reconciler twice never duplicates them, last conjunct); if exactly one of
the two exists, only the missing one is inserted, never duplicating: a missing
`Status` goes immediately after the existing `ActualStatus`, while a missing
`ActualStatus` goes immediately after the expected-status column — which is
adjacent to the existing `Status` only when that column directly follows the
expected-status column; if no expected-status column resolves, the missing
columns are appended at the sheet's current right edge.
-/
theorem c6_result_columns_amended :
    (∀ (h : List Cell) (rows : List (List Cell)) (a s : Nat),
        findCol h "ActualStatus" = some a → findCol h "Status" = some s →
        placeResultColsG h rows = ⟨h, rows, a, s⟩) ∧
    (∀ (h : List Cell) (rows : List (List Cell)) (e a : Nat),
        synIndex h expectedStatusSyns = some e →
        findCol h "ActualStatus" = some a → findCol h "Status" = none →
        placeResultColsG h rows =
          ⟨h.take a ++ some "Status" :: h.drop a,
            rows.map (fun r => insertColsList r (a + 1) 1), a, a + 1⟩) ∧
    (∀ (h : List Cell) (rows : List (List Cell)) (e s : Nat),
        synIndex h expectedStatusSyns = some e →
        findCol h "ActualStatus" = none → findCol h "Status" = some s →
        ∃ s2, placeResultColsG h rows =
          ⟨h.take e ++ some "ActualStatus" :: h.drop e,
            rows.map (fun r => insertColsList r (e + 1) 1), e + 1, s2⟩) ∧
    (∀ (h : List Cell) (rows : List (List Cell)),
        synIndex h expectedStatusSyns = none →
        findCol h "ActualStatus" = none → findCol h "Status" = none →
        placeResultColsG h rows =
          ⟨h ++ [some "ActualStatus", some "Status"], rows, h.length + 1,
            h.length + 2⟩) ∧
    (∀ (h : List Cell) (rows : List (List Cell)) (a : Nat),
        synIndex h expectedStatusSyns = none →
        findCol h "ActualStatus" = some a → findCol h "Status" = none →
        placeResultColsG h rows =
          ⟨h ++ [some "Status"], rows, a, h.length + 1⟩) ∧
    (∀ (h : List Cell) (rows : List (List Cell)) (s : Nat),
        synIndex h expectedStatusSyns = none →
        findCol h "ActualStatus" = none → findCol h "Status" = some s →
        placeResultColsG h rows =
          ⟨h ++ [some "ActualStatus"], rows, h.length + 1, s⟩) ∧
    (∀ (h : List Cell) (rows : List (List Cell)),
        (placeResultColsG (placeResultColsG h rows).header
            (placeResultColsG h rows).rows).header =
          (placeResultColsG h rows).header ∧
        (placeResultColsG (placeResultColsG h rows).header
            (placeResultColsG h rows).rows).rows =
          (placeResultColsG h rows).rows) := by
  refine ⟨place_both, ?_, ?_, ?_, ?_, ?_, ?_⟩
  · intro h rows e a hE ha hs
    exact place_missing_status h rows e a hE ha hs
  · intro h rows e s hE ha hs
    exact place_missing_actual h rows e s hE ha hs
  · intro h rows hE ha hs
    exact place_append_both h rows hE ha hs
  · intro h rows a hE ha hs
    exact place_append_status h rows a hE ha hs
  · intro h rows s hE ha hs
    exact place_append_actual h rows s hE ha hs
  · intro h rows
    obtain ⟨⟨a, ha⟩, ⟨s, hs⟩⟩ := place_both_present h rows
    rw [place_both _ _ a s ha hs]
    exact ⟨rfl, rfl⟩

/-- A sheet header with an expected-status column, an unrelated column, and a
pre-existing `Status` column, but no `ActualStatus` column. -/
def c6Header : List Cell := [some "ExpectedStatus", some "Notes", some "Status"]

/--
Counterexample to claim C6 as stated: on a header
`[ExpectedStatus, Notes, Status]`, exactly one of the two result columns
(`Status`) exists, and the missing `ActualStatus` is inserted at position 2
(right after the expected-status column) while the existing `Status` ends up
at position 4 — the inserted column is *not* adjacent to the existing one of
the pair.
-/
theorem c6_counterexample :
    findCol c6Header "ActualStatus" = none ∧
    findCol c6Header "Status" = some 3 ∧
    (placeResultColsG c6Header []).header =
      [some "ExpectedStatus", some "ActualStatus", some "Notes",
        some "Status"] ∧
    (placeResultColsG c6Header []).aIdx = 2 ∧
    findCol (placeResultColsG c6Header []).header "Status" = some 4 ∧
    ¬(2 + 1 = 4 ∨ 4 + 1 = 2) := by
  refine ⟨by decide, by decide, by decide, by decide, by decide, by decide⟩

/-- Witness for the amended C6 at a fully annotated header: both result
columns exist, so placement changes nothing. -/
theorem c6_witness :
    placeResultColsG
        [some "ExpectedStatus", some "ActualStatus", some "Status"] [] =
      ⟨[some "ExpectedStatus", some "ActualStatus", some "Status"], [], 2, 3⟩ :=
  c6_result_columns_amended.1
    [some "ExpectedStatus", some "ActualStatus", some "Status"] [] 2 3
    (by decide) (by decide)

/--
One execution record of the external runner's output, restricted to the fields
the reconciler reads: the response status code, the item name, and the `error`
field of each assertion outcome (`none` = the assertion passed).
-/
structure ExecRec where
  code : Option Int
  itemName : Option String
  errors : List (Option String)
deriving DecidableEq

/--
The verdict computation, lines 581–585: `result = "PASSED"`, then the first
assertion with a non-null error switches it to `"FAILED"` and breaks.
-/
def verdictLoop : List (Option String) → String
  | [] => "PASSED"
  | some _ :: _ => "FAILED"
  | none :: rest => verdictLoop rest

/-- The success fill color (line 495). -/
def greenFill : String := "C6EFCE"

/-- The failure fill color (line 496). -/
def redFill : String := "FFC7CE"

/-- `status_cell.fill = GREEN if result == "PASSED" else RED` (line 590). -/
def statusFill (result : String) : String :=
  if result == "PASSED" then greenFill else redFill

/--
Claim C10: an execution record whose assertion list is empty is reconciled as
PASSED with the success fill, and a FAILED verdict occurs exactly when some
assertion outcome carries a non-null error.
-/
theorem c10_verdict_and_fill :
    verdictLoop [] = "PASSED" ∧
    statusFill (verdictLoop []) = greenFill ∧
    (∀ errs : List (Option String),
        (verdictLoop errs = "FAILED" ↔ errs.any Option.isSome = true)) := by
  refine ⟨rfl, rfl, ?_⟩
  intro errs
  induction errs with
  | nil => decide
  | cons e rest ih =>
      cases e with
      | some v => simp [verdictLoop]
      | none => simpa [verdictLoop] using ih

/--
The write-back loop (lines 572–578) flattened over the sheets' row positions
in visiting order: a row present in the linkage consumes the next execution;
on exhaustion of the execution iterator the caught `StopIteration` breaks out,
so no further row is written.  (The `break` is per sheet, but every linked row
of a later sheet immediately re-raises `StopIteration`, so the set of written
rows is the same.)
-/
def reconcileWrites :
    List (String × Nat) → List (String × Nat) → List ExecRec →
      List ((String × Nat) × ExecRec)
  | [], _, _ => []
  | r :: rs, links, execs =>
    if links.contains r then
      match execs with
      | [] => []
      | e :: es => (r, e) :: reconcileWrites rs links es
    else reconcileWrites rs links execs

theorem reconcileWrites_eq_zip (rows links : List (String × Nat)) :
    ∀ execs, reconcileWrites rows links execs =
      (rows.filter (fun r => links.contains r)).zip execs := by
  induction rows with
  | nil => intro execs; rfl
  | cons r rs ih =>
      intro execs
      by_cases hr : links.contains r = true
      · have hmem : r ∈ links := by simpa using hr
        cases execs with
        | nil =>
            simp [reconcileWrites, hr, hmem, List.filter_cons,
              List.zip_nil_right]
        | cons e es => simp [reconcileWrites, hr, hmem, List.filter_cons, ih]
      · have hmem : r ∉ links := by simpa using hr
        simp [reconcileWrites, hr, hmem, List.filter_cons, ih]

theorem map_fst_zip_take {α β : Type} (l : List α) :
    ∀ e : List β, (l.zip e).map Prod.fst = l.take e.length := by
  induction l with
  | nil => intro e; simp
  | cons a t ih =>
      intro e
      cases e with
      | nil => simp
      | cons b bs => simp [ih]

/--
Claim C7: when the execution list is shorter than the linkage, reconciliation
completes without any exception (the write-back loop is a total function): it
writes exactly the first k linked rows, pairing them with the k executions in
lockstep order, and every linked row beyond the k-th receives no write.
-/
theorem c7_short_execution_list (rows links : List (String × Nat))
    (execs : List ExecRec) (hnd : rows.Nodup)
    (hshort : execs.length <
      (rows.filter (fun r => links.contains r)).length) :
    (reconcileWrites rows links execs).map Prod.snd = execs ∧
    (reconcileWrites rows links execs).map Prod.fst =
      (rows.filter (fun r => links.contains r)).take execs.length ∧
    ∀ r ∈ (rows.filter (fun r => links.contains r)).drop execs.length,
      r ∉ (reconcileWrites rows links execs).map Prod.fst := by
  rw [reconcileWrites_eq_zip]
  refine ⟨List.map_snd_zip _ execs (le_of_lt hshort),
    map_fst_zip_take _ execs, ?_⟩
  rw [map_fst_zip_take _ execs]
  intro r hdrop hmem
  have hndfl : (rows.filter (fun r => links.contains r)).Nodup :=
    hnd.filter _
  have hndsplit : ((rows.filter (fun r => links.contains r)).take execs.length
      ++ (rows.filter (fun r => links.contains r)).drop execs.length).Nodup := by
    rw [List.take_append_drop]
    exact hndfl
  exact List.disjoint_of_nodup_append hndsplit hmem hdrop

/-- Concrete linked rows for the short-read witness. -/
def c7Rows : List (String × Nat) := [("S", 2), ("S", 3), ("S", 4)]

/-- Two executions for three linked rows. -/
def c7Execs : List ExecRec :=
  [⟨some 200, some "a", []⟩, ⟨some 404, some "b", [some "boom"]⟩]

/-- Witness for C7: three linked rows, two executions — the first two rows are
written in lockstep and row 4 is left unwritten. -/
theorem c7_witness :
    (reconcileWrites c7Rows c7Rows c7Execs).map Prod.fst =
        [("S", 2), ("S", 3)] ∧
      ("S", 4) ∉ (reconcileWrites c7Rows c7Rows c7Execs).map Prod.fst := by
  have h := c7_short_execution_list c7Rows c7Rows c7Execs (by decide) (by decide)
  constructor
  · rw [h.2.1]
    decide
  · exact h.2.2 ("S", 4) (by decide)

/-- The possible outcomes of invoking the external runner. -/
inductive RunOutcome where
  | fatal
  | crash
  | proceeds (execs : List ExecRec)
deriving DecidableEq

/--
`run_newman_and_generate_report` control flow, `newman_runner.py` lines
29–44: a non-zero exit (`CalledProcessError`) is caught and tolerated unless
the JSON output artifact is missing, in which case the run aborts (the
failure is printed) with no report and no executions; with the artifact
present, its parsed executions are processed normally.  A zero exit with a
missing artifact raises an uncaught `FileNotFoundError` at the subsequent
`open`, modelled as `crash` (outside this claim).
-/
def runNewmanOutcome (exitNonZero artifactExists : Bool)
    (artifactExecs : List ExecRec) : RunOutcome :=
  if exitNonZero then
    if artifactExists then RunOutcome.proceeds artifactExecs
    else RunOutcome.fatal
  else if artifactExists then RunOutcome.proceeds artifactExecs
  else RunOutcome.crash

/-- Whether the runner generates its Excel report: only on the proceeds path,
and only when a report name was requested (lines 46–152). -/
def producesReport (o : RunOutcome) (reportRequested : Bool) : Bool :=
  match o with
  | RunOutcome.proceeds _ => reportRequested
  | _ => false

/--
Claim C9: a non-zero runner exit with a missing output artifact is fatal for
reporting — no report is generated and no executions are returned; whenever
the artifact exists, any exit status is tolerated and the parsed executions
proceed to reconciliation.
-/
theorem c9_runner_exit_artifact :
    (∀ execs : List ExecRec,
        runNewmanOutcome true false execs = RunOutcome.fatal) ∧
    (∀ (b : Bool) (execs : List ExecRec),
        producesReport (runNewmanOutcome true false execs) b = false) ∧
    (∀ (nz : Bool) (execs : List ExecRec),
        runNewmanOutcome nz true execs = RunOutcome.proceeds execs) := by
  refine ⟨fun execs => rfl, fun b execs => rfl, ?_⟩
  intro nz execs
  cases nz <;> rfl

/-- `sheet.cell(row, pos).value` on one row (1-based); cells beyond the row's
end read as empty. -/
def getCol (r : List Cell) (pos : Nat) : Cell := r.getD (pos - 1) none

/-- The result-cell writes for one linked row (lines 587–589); a numeric
actual status is rendered as its decimal string when stored in the cell. -/
def writeRow (r : List Cell) (aIdx sIdx : Nat) (e : ExecRec) : List Cell :=
  setCol (setCol r aIdx (e.code.map (fun c => toString c))) sIdx
    (some (verdictLoop e.errors))

/-- `item_name = (exec_item.get("item", {}) or {}).get("name"); if item_name:`
(lines 600–602): the display-name fallback, dropped when absent or empty. -/
def fallbackName (e : ExecRec) : Option String :=
  match e.itemName with
  | some nm => if nm == "" then none else some nm
  | none => none

/--
Failure-identifier recording (lines 592–602): on a FAILED verdict, the ID
cell — read from the *already written* row at the pre-insertion index — is
used when non-blank, else the execution's item name.
-/
def failureIdFor (idIdx : Option Nat) (row : List Cell) (e : ExecRec) :
    Option String :=
  if verdictLoop e.errors == "FAILED" then
    match idIdx with
    | some i =>
      if cellBlank (getCol row i) then fallbackName e
      else some ((getCol row i).getD "")
    | none => fallbackName e
  else none

/-- The per-sheet write loop (lines 572–602) over numbered data rows. -/
def reconcileRowsG (aIdx sIdx : Nat) (idIdx : Option Nat) :
    List (Nat × List Cell) → List Nat → List ExecRec →
      List (List Cell) × List String
  | [], _, _ => ([], [])
  | (n, r) :: rest, links, execs =>
    if links.contains n then
      match execs with
      | [] => (r :: rest.map Prod.snd, [])
      | e :: es =>
        let r2 := writeRow r aIdx sIdx e
        let res := reconcileRowsG aIdx sIdx idIdx rest links es
        (r2 :: res.1,
          match failureIdFor idIdx r2 e with
          | some fid => fid :: res.2
          | none => res.2)
    else
      let res := reconcileRowsG aIdx sIdx idIdx rest links execs
      (r :: res.1, res.2)

/-- Number the data rows with their spreadsheet row numbers, starting at 2. -/
def enumFrom {α : Type} (n : Nat) : List α → List (Nat × α)
  | [] => []
  | x :: t => (n, x) :: enumFrom (n + 1) t

/--
The reconciliation pass over one sheet (lines 501–602): the ID column index is
resolved from the *original* header (lines 518–523), then result columns are
placed — which shifts the data columns of every row — and finally the linked
rows are written and failure identifiers collected, still using the stale ID
index.  Returns (new header, new data rows, failure identifiers).
-/
def sheetPass (header : List Cell) (rows : List (List Cell)) (links : List Nat)
    (execs : List ExecRec) : List Cell × List (List Cell) × List String :=
  let idIdx := synIndex header idSyns
  let p := placeResultColsG header rows
  let res := reconcileRowsG p.aIdx p.sIdx idIdx (enumFrom 2 p.rows) links execs
  (p.header, res.1, res.2)

/-- A sheet whose ID column (`TCID`) lies to the right of `ExpectedStatus`. -/
def c8Header : List Cell := [some "Name", some "ExpectedStatus", some "TCID"]

/-- Its single data row, with external identifier `TC1`. -/
def c8Row : List Cell := [some "Login", some "200", some "TC1"]

/-- A failing execution for that row: status 500, one errored assertion. -/
def c8Exec : ExecRec :=
  ⟨some 500, some "Login",
    [some "expected response to have status code 200 but got 500"]⟩

/--
Claim C8 (code bug): the ID column index is computed *before* the result
columns are inserted after ExpectedStatus, so on a sheet whose ID column lies
to the right of the expected-status column the insertion shifts the ID cells
two places right, while the recorded index goes stale.  The sheet has a TCID
column (index 3) with non-blank value `TC1` and the verdict is FAILED, yet the
recorded failure identifier is `"500"` — the freshly written ActualStatus cell
now sitting at the stale index — not `"TC1"` as the claim states.
-/
theorem c8_stale_id_column_bug :
    synIndex c8Header idSyns = some 3 ∧
    getCol c8Row 3 = some "TC1" ∧
    cellBlank (getCol c8Row 3) = false ∧
    verdictLoop c8Exec.errors = "FAILED" ∧
    (sheetPass c8Header [c8Row] [2] [c8Exec]).2.2 = ["500"] ∧
    (["500"] : List String) ≠ ["TC1"] := by
  refine ⟨by decide, by decide, by decide, by decide, by decide, by decide⟩

end ApiAuto
